import Mathlib

/-!
Shallow embedding of the tournament engine of src/bot/app.py (daminow/ttBot).

The store-backed state (tables tournaments, players, rounds, matches) is a
record of lists; each bot handler's database effect is a pure function on
that record.  Telegram rendering, session plumbing and authentication are
outside the model; an operation's outcome label records which message or
exception the handler would produce.  A handler that would raise an
unhandled Python exception before its first commit leaves the store
unchanged, which the model renders by returning the original state with a
fault outcome.
-/

/-- Row of table players (app.py, class Player): id, tournament_id, name, score.
score starts at 0 and is only ever incremented, so it is a Nat. -/
structure Player where
  id : Nat
  tournament_id : Nat
  name : String
  score : Nat
  deriving DecidableEq

/-- The JSON result written by confirm_score / confirm_res:
result = (winner, loser, score string). An unset result (Python default) is none. -/
structure MatchResult where
  winner : Nat
  loser : Nat
  score : String
  deriving DecidableEq

/-- Row of table matches (app.py, class Match). -/
structure Match where
  id : Nat
  round_id : Nat
  table_number : Nat
  player1_id : Nat
  player2_id : Nat
  result : Option MatchResult
  status : String
  deriving DecidableEq

/-- The JSON data column of a Round: round_simple stores data = tables of
player-id groups, round_final stores data = matches, the bracket pairs. -/
inductive RoundData where
  /-- the JSON key "tables" written by round_simple -/
  | tables (tables : List (List Nat))
  /-- the JSON key "matches" written by round_final
  ("matches" is a reserved word in Lean, hence the name bracket) -/
  | bracket (pairs : List (Nat × Nat))
  deriving DecidableEq

/-- Row of table rounds (app.py, class Round). -/
structure Round where
  id : Nat
  tournament_id : Nat
  round_type : String
  data : RoundData
  status : String
  deriving DecidableEq

/-- Row of table tournaments (app.py, class Tournament); data_tables is the
configured table count stored in the JSON data column at creation. -/
structure Tournament where
  id : Nat
  name : String
  tournament_type : String
  status : String
  finished_at : Option Nat
  data_tables : Nat
  deriving DecidableEq

/-- The relational store consumed by the handlers, with the id sequences the
database would use for newly inserted rounds and matches. -/
structure DB where
  tournaments : List Tournament
  players : List Player
  rounds : List Round
  /-- the matches table ("matches" is a reserved word in Lean) -/
  matchRows : List Match
  next_round_id : Nat
  next_match_id : Nat
  deriving DecidableEq

/-- A Python value that is either an int or a str; used to model the
dynamically typed comparison in confirm_res. -/
inductive PyVal where
  | int (n : Int)
  | str (s : String)
  deriving DecidableEq

/-- Python equality between int and str values:
values of different types are never equal. -/
def pyEq : PyVal → PyVal → Bool
  | PyVal.int a, PyVal.int b => a == b
  | PyVal.str a, PyVal.str b => a == b
  | _, _ => false

/-- session.get(Match, mid). -/
def getMatch (db : DB) (mid : Nat) : Option Match :=
  db.matchRows.find? (fun m => m.id == mid)

/-- session.get(Round, rid). -/
def getRound (db : DB) (rid : Nat) : Option Round :=
  db.rounds.find? (fun r => r.id == rid)

/-- session.get(Player, pid). -/
def getPlayer (db : DB) (pid : Nat) : Option Player :=
  db.players.find? (fun p => p.id == pid)

/-- session.get(Tournament, tid). -/
def getTournament (db : DB) (tid : Nat) : Option Tournament :=
  db.tournaments.find? (fun t => t.id == tid)

/-- Committing a mutation of the match row with id mid. -/
def setMatch (db : DB) (mid : Nat) (f : Match → Match) : DB :=
  { db with matchRows := db.matchRows.map (fun m => if m.id == mid then f m else m) }

/-- Committing a mutation of the round row with id rid. -/
def setRound (db : DB) (rid : Nat) (f : Round → Round) : DB :=
  { db with rounds := db.rounds.map (fun r => if r.id == rid then f r else r) }

/-- Committing "player.score += k" for the player row with id pid. -/
def bumpScore (db : DB) (pid : Nat) (k : Nat) : DB :=
  { db with players := db.players.map (fun p =>
      if p.id == pid then { p with score := p.score + k } else p) }

/-- Observer: status of the match with id mid. -/
def matchStatus (db : DB) (mid : Nat) : Option String :=
  (getMatch db mid).map (fun m => m.status)

/-- Observer: result of the match with id mid. -/
def matchResult (db : DB) (mid : Nat) : Option (Option MatchResult) :=
  (getMatch db mid).map (fun m => m.result)

/-- Observer: score of the player with id pid. -/
def playerScore (db : DB) (pid : Nat) : Option Nat :=
  (getPlayer db pid).map (fun p => p.score)

/-- Observer: status of the round with id rid. -/
def roundStatus (db : DB) (rid : Nat) : Option String :=
  (getRound db rid).map (fun r => r.status)

/-- Observer: status of the tournament with id tid. -/
def tournamentStatus (db : DB) (tid : Nat) : Option String :=
  (getTournament db tid).map (fun t => t.status)

/-- select(Match).where(Match.round_id == rid). -/
def roundMatches (db : DB) (rid : Nat) : List Match :=
  db.matchRows.filter (fun m => m.round_id == rid)

/-- all(x.status == "done" for x in allm). -/
def allMatchesDone (db : DB) (rid : Nat) : Bool :=
  (roundMatches db rid).all (fun m => m.status == "done")

/-- The round-completion block shared by confirm_score and confirm_res
(app.py lines 1046-1051 and 1105-1108): re-query the round's matches and
flip the round to done when every one of them is done. -/
def checkRoundDone (db : DB) (rid : Nat) : DB :=
  if allMatchesDone db rid then
    setRound db rid (fun r => { r with status := "done" })
  else db

/-- select(Round).where(tournament_id == tid, status == "pending"):
the rounds a pending-round query would return. -/
def pendingRounds (db : DB) (tid : Nat) : List Round :=
  db.rounds.filter (fun r => r.tournament_id == tid && r.status == "pending")

/-- The latest completed simple round of a tournament
(select ... round_type == "simple", status == "done", order_by created_at desc,
first).  Rows are kept in creation order, so the query returns the last match
of the filter. -/
def latestDoneSimple (db : DB) (tid : Nat) : Option Round :=
  (db.rounds.filter (fun r =>
    r.tournament_id == tid && r.round_type == "simple" && r.status == "done")).getLast?

/-- Whether send_tournament_menu (app.py lines 359-387) offers the
"round_simple" button: the tournament exists and is not ended, the
pending-round query returns no row, and no completed simple round exists.
A pending-round query returning more than one row raises in
scalar_one_or_none, so no button is offered then either. -/
def menuOffersSimple (db : DB) (tid : Nat) : Bool :=
  match db.tournaments.find? (fun t => t.id == tid) with
  | none => false
  | some tour =>
    if tour.status == "ended" then false
    else match pendingRounds db tid with
      | [] => (latestDoneSimple db tid).isNone
      | _ :: _ => false

/-- ceil(n / t) as computed by -(-n // tcount) in round_simple. -/
def ceilDiv (n t : Nat) : Nat := (n + t - 1) / t

/-- The break condition of round_simple's table-count loop: 4 <= size <= 7. -/
def sizeOk (n t : Nat) : Bool := decide (4 ≤ ceilDiv n t ∧ ceilDiv n t ≤ 7)

/-- The candidate table counts scanned by round_simple:
range(2, n // 4 + 3, 2), i.e. 2, 4, ... below n / 4 + 3. -/
def scanned (n : Nat) : List Nat := List.range' 2 ((n / 4 + 2) / 2) 2

/-- The table count chosen by round_simple's loop: the first scanned
candidate with 4 <= ceil(n / t) <= 7, or the last scanned candidate when
none qualifies (the loop variable keeps its final value). -/
def chooseT (n : Nat) : Nat :=
  match (scanned n).find? (fun t => sizeOk n t) with
  | some t => t
  | none => (scanned n).getLastD 0

/-- everyNth ps t j: the elements of ps at positions j, j + t, j + 2t, ...
(j counts down to the next pick).  Table j of the round-robin deal
"for p, idx in zip(players, cycle(range(tcount)))" is everyNth players tcount j. -/
def everyNth {α : Type} : List α → Nat → Nat → List α
  | [], _, _ => []
  | p :: ps, t, 0 => p :: everyNth ps t (t - 1)
  | _ :: ps, t, j + 1 => everyNth ps t j

/-- The table layout produced by round_simple's dealing loop: player i goes
to table i mod t, preserving order inside each table. -/
def partitionTables {α : Type} (ps : List α) (t : Nat) : List (List α) :=
  (List.range t).map (everyNth ps t)

/-- itertools.combinations(tbl, 2): every unordered pair exactly once, in
source order. -/
def pairs {α : Type} : List α → List (α × α)
  | [] => []
  | x :: xs => xs.map (fun y => (x, y)) ++ pairs xs

/-- Stable insert for a sort by descending score; a new element goes after
existing elements of equal score. -/
def insertDesc (p : Player) : List Player → List Player
  | [] => [p]
  | q :: qs => if q.score < p.score then p :: q :: qs else q :: insertDesc p qs

/-- Stable sort by descending score, modelling both
order_by(Player.score.desc()) and sorted(..., key=score, reverse=True). -/
def sortByScoreDesc (l : List Player) : List Player := l.foldr insertDesc []

/-- round_simple (app.py lines 774-828): load the tournament's players by
descending score, pick the table count, deal the tables round-robin, insert
one pending round recording the table layout, insert every intra-table pair
as a scheduled match, and set the tournament active.  No check of any
existing pending round is performed. -/
def round_simple (db : DB) (tid : Nat) : DB :=
  let players := sortByScoreDesc (db.players.filter (fun p => p.tournament_id == tid))
  let n := players.length
  let tcount := chooseT n
  let tables := partitionTables players tcount
  let rid := db.next_round_id
  let rnd : Round :=
    { id := rid, tournament_id := tid, round_type := "simple",
      data := RoundData.tables (tables.map (fun tbl => tbl.map (fun p => p.id))),
      status := "pending" }
  let tableMatches :=
    (tables.enum.map (fun it =>
      (pairs it.2).map (fun pq => (it.1 + 1, pq.1.id, pq.2.id)))).flatten
  let newMatches := tableMatches.enum.map (fun km =>
    { id := db.next_match_id + km.1, round_id := rid, table_number := km.2.1,
      player1_id := km.2.2.1, player2_id := km.2.2.2,
      result := none, status := "scheduled" : Match })
  { db with
      rounds := db.rounds ++ [rnd],
      matchRows := db.matchRows ++ newMatches,
      tournaments := db.tournaments.map (fun t =>
        if t.id == tid then { t with status := "active" } else t),
      next_round_id := rid + 1,
      next_match_id := db.next_match_id + newMatches.length }

/-- Outcome label of round_final. -/
inductive FinalOutcome where
  | ok
  /-- no completed simple round: the handler reports an error message. -/
  | noSimpleDone
  /-- unhandled KeyError or IndexError raised before any commit. -/
  | fault
  deriving DecidableEq

/-- round_final (app.py lines 832-907): find the latest completed simple
round (reporting an error when there is none), split the tournament's
players by that round's first two recorded tables, sort each table by
descending score, seed the bracket A0-B3, B0-A3, A1-B2, B1-A2, and insert a
pending final round with its four scheduled matches.  Accessing a missing
table or a missing rank raises an unhandled exception before any commit
(player count and table count are never validated). -/
def round_final (db : DB) (tid : Nat) : FinalOutcome × DB :=
  match latestDoneSimple db tid with
  | none => (FinalOutcome.noSimpleDone, db)
  | some simple =>
    let all_players := db.players.filter (fun p => p.tournament_id == tid)
    match simple.data with
    | RoundData.bracket _ => (FinalOutcome.fault, db)
    | RoundData.tables tbls =>
      match tbls[0]?, tbls[1]? with
      | some t1ids, some t2ids =>
        let table1 := sortByScoreDesc (all_players.filter (fun p => t1ids.contains p.id))
        let table2 := sortByScoreDesc (all_players.filter (fun p => t2ids.contains p.id))
        match table1[0]?, table1[1]?, table1[2]?, table1[3]?,
              table2[0]?, table2[1]?, table2[2]?, table2[3]? with
        | some a0, some a1, some a2, some a3, some b0, some b1, some b2, some b3 =>
          let bracket := [(a0.id, b3.id), (b0.id, a3.id), (a1.id, b2.id), (b1.id, a2.id)]
          let rid := db.next_round_id
          let rnd : Round :=
            { id := rid, tournament_id := tid, round_type := "final",
              data := RoundData.bracket bracket, status := "pending" }
          let ms := bracket.enum.map (fun iab =>
            { id := db.next_match_id + iab.1, round_id := rid, table_number := iab.1 + 1,
              player1_id := iab.2.1, player2_id := iab.2.2,
              result := none, status := "scheduled" : Match })
          (FinalOutcome.ok,
            { db with
                rounds := db.rounds ++ [rnd],
                matchRows := db.matchRows ++ ms,
                tournaments := db.tournaments.map (fun t =>
                  if t.id == tid then { t with status := "active" } else t),
                next_round_id := rid + 1,
                next_match_id := db.next_match_id + ms.length })
        | _, _, _, _, _, _, _, _ => (FinalOutcome.fault, db)
      | _, _ => (FinalOutcome.fault, db)

/-- The player ids currently occupied in a playing match of the round
(start_match, app.py lines 680-692). -/
def playingIds (db : DB) (rid : Nat) : List Nat :=
  ((db.matchRows.filter (fun m => m.round_id == rid && m.status == "playing")).map
    (fun m => [m.player1_id, m.player2_id])).flatten

/-- The matches start_match offers for starting (app.py lines 694-697):
scheduled matches of the round neither of whose players is in a playing
match of the same round. -/
def availableMatches (db : DB) (rid : Nat) : List Match :=
  (db.matchRows.filter (fun m => m.round_id == rid && m.status == "scheduled")).filter
    (fun m => !(playingIds db rid).contains m.player1_id
           && !(playingIds db rid).contains m.player2_id)

/-- play_match (app.py lines 733-740): set the match's status to "playing"
with no check of its current status; none when the match row is missing
(the handler would raise on m.status). -/
def play_match (db : DB) (mid : Nat) : Option DB :=
  (getMatch db mid).map (fun _ =>
    setMatch db mid (fun m => { m with status := "playing" }))

/-- Outcome label of confirm_score and confirm_res. -/
inductive ConfirmOutcome where
  | ok
  /-- confirm_score rejects an equal score before touching the store. -/
  | tie
  /-- confirm_res finds the match no longer playing and returns to the menu. -/
  | alreadyResolved
  /-- unhandled exception on a missing row, raised before the commit. -/
  | fault
  deriving DecidableEq

/-- confirm_score (app.py lines 1016-1075): reject a tied score, otherwise
derive winner and loser from the higher side, write the result and the done
status, award 2 and 1 points inside a simple round, then run the
round-completion check.  The match's current status is never examined. -/
def confirm_score (db : DB) (mid s1 s2 : Nat) : ConfirmOutcome × DB :=
  if s1 == s2 then (ConfirmOutcome.tie, db)
  else
    match getMatch db mid with
    | none => (ConfirmOutcome.fault, db)
    | some m =>
      match getRound db m.round_id with
      | none => (ConfirmOutcome.fault, db)
      | some rnd =>
        let winner_id := if s1 > s2 then m.player1_id else m.player2_id
        let loser_id := if s1 > s2 then m.player2_id else m.player1_id
        let db1 := setMatch db mid (fun mm =>
          { mm with
              result := some { winner := winner_id, loser := loser_id,
                               score := toString s1 ++ ":" ++ toString s2 },
              status := "done" })
        if rnd.round_type == "simple" then
          match getPlayer db winner_id, getPlayer db loser_id with
          | some _, some _ =>
            let db2 := bumpScore (bumpScore db1 winner_id 2) loser_id 1
            (ConfirmOutcome.ok, checkRoundDone db2 rnd.id)
          | _, _ => (ConfirmOutcome.fault, db)
        else (ConfirmOutcome.ok, checkRoundDone db1 rnd.id)

/-- confirm_res (app.py lines 1080-1110): re-check that the match is still
playing (returning to the menu otherwise), then record the winner chosen by
the callback's who token and the raw score string, award points inside a
simple round, and run the round-completion check.  The source converts who
with int(who) and then compares it to the string "1", so the comparison is
Python int-vs-str equality: pyEq (PyVal.int who) (PyVal.str "1"). -/
def confirm_res (db : DB) (mid : Nat) (who : Nat) (score : String) :
    ConfirmOutcome × DB :=
  match getMatch db mid with
  | none => (ConfirmOutcome.fault, db)
  | some m =>
    if m.status != "playing" then (ConfirmOutcome.alreadyResolved, db)
    else
      let whoVal := PyVal.int (Int.ofNat who)
      let winner_id := if pyEq whoVal (PyVal.str "1") then m.player1_id else m.player2_id
      let loser_id := if pyEq whoVal (PyVal.str "1") then m.player2_id else m.player1_id
      match getRound db m.round_id with
      | none => (ConfirmOutcome.fault, db)
      | some rnd =>
        let db1 := setMatch db mid (fun mm =>
          { mm with
              result := some { winner := winner_id, loser := loser_id, score := score },
              status := "done" })
        if rnd.round_type == "simple" then
          match getPlayer db winner_id, getPlayer db loser_id with
          | some _, some _ =>
            let db2 := bumpScore (bumpScore db1 winner_id 2) loser_id 1
            (ConfirmOutcome.ok, checkRoundDone db2 rnd.id)
          | _, _ => (ConfirmOutcome.fault, db)
        else (ConfirmOutcome.ok, checkRoundDone db1 rnd.id)

/-- finish_round (app.py lines 1114-1115): only re-renders the tournament
menu; the store is untouched. -/
def finish_round (db : DB) : DB := db

/-- end_tournament (app.py lines 1269-1280): one conditional update setting
the tournament's status to "ended" and its finish timestamp; func.now() is
modelled by the explicit now argument. -/
def end_tournament (db : DB) (tid : Nat) (now : Nat) : DB :=
  { db with tournaments := db.tournaments.map (fun t =>
      if t.id == tid then { t with status := "ended", finished_at := some now } else t) }

/-!  Concrete store states used by witnesses and counterexamples. -/

/-- A store whose single match is already confirmed: status done, result
written, points already awarded. -/
def dbDoneMatch : DB := {
  tournaments := [⟨1, "T", "Beginner", "active", none, 2⟩],
  players := [⟨1, 1, "A", 2⟩, ⟨2, 1, "B", 1⟩],
  rounds := [⟨1, 1, "simple", RoundData.tables [[1, 2]], "done"⟩],
  matchRows := [⟨1, 1, 1, 1, 2, some ⟨1, 2, "3:0"⟩, "done"⟩],
  next_round_id := 2, next_match_id := 2 }

/-- A store whose single match is still scheduled. -/
def dbScheduledMatch : DB := {
  tournaments := [⟨1, "T", "Beginner", "active", none, 2⟩],
  players := [⟨1, 1, "A", 0⟩, ⟨2, 1, "B", 0⟩],
  rounds := [⟨1, 1, "simple", RoundData.tables [[1, 2]], "pending"⟩],
  matchRows := [⟨1, 1, 1, 1, 2, none, "scheduled"⟩],
  next_round_id := 2, next_match_id := 2 }

/-- A store whose single match is playing, inside a pending simple round. -/
def dbPlayingMatch : DB := {
  tournaments := [⟨1, "T", "Beginner", "active", none, 2⟩],
  players := [⟨1, 1, "A", 0⟩, ⟨2, 1, "B", 0⟩],
  rounds := [⟨1, 1, "simple", RoundData.tables [[1, 2]], "pending"⟩],
  matchRows := [⟨1, 1, 1, 1, 2, none, "playing"⟩],
  next_round_id := 2, next_match_id := 2 }

/-- Like dbPlayingMatch, with a second playing match so a tie attempt can be
told apart from other mutations. -/
def dbPlayingPair : DB := {
  tournaments := [⟨1, "T", "Beginner", "active", none, 2⟩],
  players := [⟨1, 1, "A", 0⟩, ⟨2, 1, "B", 0⟩, ⟨3, 1, "C", 0⟩, ⟨4, 1, "D", 0⟩],
  rounds := [⟨1, 1, "simple", RoundData.tables [[1, 2, 3, 4]], "pending"⟩],
  matchRows := [⟨1, 1, 1, 1, 2, none, "playing"⟩, ⟨2, 1, 1, 3, 4, none, "scheduled"⟩],
  next_round_id := 2, next_match_id := 3 }

/-- Eight registered players, one open (pending) simple round. -/
def dbPendingRound : DB := {
  tournaments := [⟨1, "T", "Beginner", "registration", none, 2⟩],
  players := (List.range 8).map (fun i => ⟨i + 1, 1, "P", 0⟩),
  rounds := [⟨1, 1, "simple", RoundData.tables [[1, 3, 5, 7], [2, 4, 6, 8]], "pending"⟩],
  matchRows := [],
  next_round_id := 2, next_match_id := 1 }

/-- Eight registered players, no round yet. -/
def dbFreshEight : DB := {
  tournaments := [⟨1, "T", "Beginner", "registration", none, 2⟩],
  players := (List.range 8).map (fun i => ⟨i + 1, 1, "P", 0⟩),
  rounds := [],
  matchRows := [],
  next_round_id := 1, next_match_id := 1 }

/-- Sixteen players whose simple round of four tables is done: more players
and more tables than a final round is specified to accept. -/
def dbSixteenDone : DB := {
  tournaments := [⟨1, "T", "Beginner", "active", none, 4⟩],
  players := (List.range 16).map (fun i => ⟨i + 1, 1, "P", 20 - i⟩),
  rounds := [⟨1, 1, "simple",
    RoundData.tables [[1, 5, 9, 13], [2, 6, 10, 14], [3, 7, 11, 15], [4, 8, 12, 16]], "done"⟩],
  matchRows := [],
  next_round_id := 2, next_match_id := 1 }

/-- Six players whose simple round of two three-player tables is done. -/
def dbSixDone : DB := {
  tournaments := [⟨1, "T", "Beginner", "active", none, 2⟩],
  players := (List.range 6).map (fun i => ⟨i + 1, 1, "P", 0⟩),
  rounds := [⟨1, 1, "simple", RoundData.tables [[1, 3, 5], [2, 4, 6]], "done"⟩],
  matchRows := [],
  next_round_id := 2, next_match_id := 1 }

/-- Two tournaments, the first with a pending round and live matches. -/
def dbTwoTournaments : DB := {
  tournaments := [⟨1, "T", "Beginner", "active", none, 2⟩, ⟨2, "U", "Advanced", "active", none, 2⟩],
  players := [⟨1, 1, "A", 3⟩, ⟨2, 1, "B", 1⟩],
  rounds := [⟨1, 1, "simple", RoundData.tables [[1, 2]], "pending"⟩],
  matchRows := [⟨1, 1, 1, 1, 2, none, "playing"⟩, ⟨2, 1, 1, 1, 2, none, "scheduled"⟩],
  next_round_id := 2, next_match_id := 3 }

/-- A pending round all of whose matches are done, ready for completion. -/
def dbRoundReady : DB := {
  tournaments := [⟨1, "T", "Beginner", "active", none, 2⟩],
  players := [⟨1, 1, "A", 2⟩, ⟨2, 1, "B", 1⟩],
  rounds := [⟨1, 1, "simple", RoundData.tables [[1, 2]], "pending"⟩],
  matchRows := [⟨1, 1, 1, 1, 2, some ⟨1, 2, "3:1"⟩, "done"⟩],
  next_round_id := 2, next_match_id := 2 }

/-- Two players with distinct ids, input of the C5 witness. -/
def psW : List Player := [⟨1, 1, "A", 0⟩, ⟨2, 1, "B", 0⟩]

/-!  Helper lemmas. -/

/-- find? commutes with a map whose function leaves the predicate alone. -/
theorem find?_map_congr {α : Type} (l : List α) (p : α → Bool) (g : α → α)
    (hg : ∀ a, p (g a) = p a) :
    (l.map g).find? p = (l.find? p).map g := by
  rw [List.find?_map, show (p ∘ g) = p from funext hg]

/-- setRound does not touch the matches table. -/
theorem roundMatches_setRound (db : DB) (rid rid2 : Nat) (f : Round → Round) :
    roundMatches (setRound db rid f) rid2 = roundMatches db rid2 := rfl

/-- Reading the status of round rid after setRound-to-done on rid. -/
theorem roundStatus_setRound_done (db : DB) (rid : Nat) :
    roundStatus (setRound db rid (fun r => { r with status := "done" })) rid
      = (roundStatus db rid).map (fun _ => "done") := by
  unfold roundStatus getRound setRound
  rw [find?_map_congr _ _ _ (fun r => by by_cases h : (r.id == rid) = true <;> simp [h])]
  cases hfind : db.rounds.find? (fun r => r.id == rid) with
  | none => rfl
  | some r =>
    have hp : r.id = rid := by simpa using List.find?_some hfind
    simp only [Option.map_map, Option.map_some]
    simp [hp]

/-!  Claims C1, C2, C9: confirmation. -/

/-- Claim C1, amended: only the confirm_res path re-checks that the match is
still playing immediately before mutating it, and a second confirmation
attempt through it is rejected with the store unchanged; the confirm_score
path performs no such re-check (see c1_counterexample). -/
theorem c1_confirm_res_rechecks_playing :
    ∀ (db : DB) (mid who : Nat) (score : String) (m : Match),
      getMatch db mid = some m → m.status ≠ "playing" →
      confirm_res db mid who score = (ConfirmOutcome.alreadyResolved, db) := by
  intro db mid who score m hm hs
  unfold confirm_res
  rw [hm]
  simp [hs]

/-- Witness for c1_confirm_res_rechecks_playing at a concrete store. -/
theorem c1_witness :
    confirm_res dbScheduledMatch 1 1 "3:0" = (ConfirmOutcome.alreadyResolved, dbScheduledMatch) :=
  c1_confirm_res_rechecks_playing dbScheduledMatch 1 1 "3:0"
    ⟨1, 1, 1, 1, 2, none, "scheduled"⟩ rfl (by decide)

/-- Claim C1, counterexample: confirm_score re-confirms a match that is
already done, overwriting its once-written result and bumping both players'
scores again, so confirmation is not at-most-once and the result field is
not immutable. -/
theorem c1_counterexample :
    matchResult (confirm_score dbDoneMatch 1 0 3).2 1 = some (some ⟨2, 1, "0:3"⟩)
    ∧ matchResult dbDoneMatch 1 = some (some ⟨1, 2, "3:0"⟩)
    ∧ matchStatus dbDoneMatch 1 = some "done"
    ∧ playerScore (confirm_score dbDoneMatch 1 0 3).2 1 = some 3
    ∧ playerScore dbDoneMatch 1 = some 2
    ∧ playerScore (confirm_score dbDoneMatch 1 0 3).2 2 = some 3
    ∧ playerScore dbDoneMatch 2 = some 1 := by decide

/-- Claim C2: evaluating confirm_res at the failing input.  The source
compares int(who) with the string "1", which is always false in Python, so
with who = 1 and score 3:1 (side 1 strictly higher and declared winner) the
code still records player 2 as winner and awards player 2 the two points. -/
theorem c2_who_comparison_bug :
    pyEq (PyVal.int 1) (PyVal.str "1") = false
    ∧ matchResult (confirm_res dbPlayingMatch 1 1 "3:1").2 1 = some (some ⟨2, 1, "3:1"⟩)
    ∧ playerScore (confirm_res dbPlayingMatch 1 1 "3:1").2 2 = some 2
    ∧ playerScore (confirm_res dbPlayingMatch 1 1 "3:1").2 1 = some 1 := by decide

/-- Claim C9, amended: the confirm_score path rejects an equal score with
the store untouched; the confirm_res path performs no tie check and records
any score string, including an equal one (see c9_counterexample). -/
theorem c9_tie_rejected_no_change :
    ∀ (db : DB) (mid s1 s2 : Nat), s1 = s2 →
      confirm_score db mid s1 s2 = (ConfirmOutcome.tie, db) := by
  intro db mid s1 s2 h
  subst h
  simp [confirm_score]

/-- Witness for c9_tie_rejected_no_change at a concrete store. -/
theorem c9_witness :
    confirm_score dbPlayingPair 1 5 5 = (ConfirmOutcome.tie, dbPlayingPair) :=
  c9_tie_rejected_no_change dbPlayingPair 1 5 5 rfl

/-- Claim C9, counterexample: confirm_res accepts the equal score 5:5 on a
playing match and mutates the store, so equal scores are not always
rejected. -/
theorem c9_counterexample :
    (confirm_res dbPlayingPair 1 1 "5:5").2 ≠ dbPlayingPair
    ∧ matchStatus (confirm_res dbPlayingPair 1 1 "5:5").2 1 = some "done"
    ∧ matchStatus dbPlayingPair 1 = some "playing"
    ∧ playerScore (confirm_res dbPlayingPair 1 1 "5:5").2 2 = some 2 := by decide

/-!  Claim C10: end_tournament frame. -/

/-- Claim C10: end_tournament touches only the tournament row it targets:
players, rounds and matches are byte-for-byte unchanged (so scores, round
statuses, table assignments, match statuses and results all survive, a
pending round included), and every other tournament keeps its status. -/
theorem c10_end_tournament_frame :
    ∀ (db : DB) (tid now : Nat),
      (end_tournament db tid now).players = db.players
      ∧ (end_tournament db tid now).rounds = db.rounds
      ∧ (end_tournament db tid now).matchRows = db.matchRows
      ∧ (∀ pid, playerScore (end_tournament db tid now) pid = playerScore db pid)
      ∧ (∀ rid, roundStatus (end_tournament db tid now) rid = roundStatus db rid)
      ∧ (∀ mid, matchStatus (end_tournament db tid now) mid = matchStatus db mid
          ∧ matchResult (end_tournament db tid now) mid = matchResult db mid)
      ∧ (∀ tid2, tid2 ≠ tid →
          tournamentStatus (end_tournament db tid now) tid2 = tournamentStatus db tid2) := by
  intro db tid now
  refine ⟨rfl, rfl, rfl, fun pid => rfl, fun rid => rfl, fun mid => ⟨rfl, rfl⟩, ?_⟩
  intro tid2 hne
  unfold tournamentStatus getTournament end_tournament
  rw [find?_map_congr _ _ _ (fun t => by by_cases h : (t.id == tid) = true <;> simp [h])]
  cases hfind : db.tournaments.find? (fun t => t.id == tid2) with
  | none => rfl
  | some t =>
    have ht : t.id = tid2 := by simpa using List.find?_some hfind
    have hno : ¬ t.id = tid := by rw [ht]; exact hne
    simp [hno]

/-- Witness for c10_end_tournament_frame at a concrete store with a pending
round, live matches and a second tournament. -/
theorem c10_witness :
    (end_tournament dbTwoTournaments 1 7).rounds = dbTwoTournaments.rounds
    ∧ (end_tournament dbTwoTournaments 1 7).matchRows = dbTwoTournaments.matchRows
    ∧ tournamentStatus (end_tournament dbTwoTournaments 1 7) 2 = tournamentStatus dbTwoTournaments 2 :=
  ⟨(c10_end_tournament_frame dbTwoTournaments 1 7).2.1,
   (c10_end_tournament_frame dbTwoTournaments 1 7).2.2.1,
   (c10_end_tournament_frame dbTwoTournaments 1 7).2.2.2.2.2.2 2 (by decide)⟩

/-!  Claim C8: starting a match. -/

/-- List.contains on Nats is membership. -/
theorem contains_eq_mem {l : List Nat} {a : Nat} : l.contains a = true ↔ a ∈ l := by
  simp [List.contains, List.elem_iff]

/-- Claim C8, amended: the start_match listing offers exactly the matches of
the round that are scheduled and whose two players are both outside every
playing match of the round; but play_match itself, the mutating step,
unconditionally sets the chosen match to playing whatever its current
status (see c8_counterexample for the backward done-to-playing move). -/
theorem c8_start_listing_guard :
    (∀ (db : DB) (rid : Nat) (m : Match),
      m ∈ availableMatches db rid ↔
        (m ∈ db.matchRows ∧ m.round_id = rid ∧ m.status = "scheduled"
          ∧ m.player1_id ∉ playingIds db rid ∧ m.player2_id ∉ playingIds db rid))
    ∧ (∀ (db : DB) (rid pid : Nat),
      pid ∈ playingIds db rid ↔
        ∃ mm ∈ db.matchRows, mm.round_id = rid ∧ mm.status = "playing"
          ∧ (pid = mm.player1_id ∨ pid = mm.player2_id))
    ∧ (∀ (db : DB) (mid : Nat) (m : Match), getMatch db mid = some m →
        ∃ db2, play_match db mid = some db2 ∧ matchStatus db2 mid = some "playing") := by
  refine ⟨?_, ?_, ?_⟩
  · intro db rid m
    simp only [availableMatches, List.mem_filter, Bool.and_eq_true, Bool.not_eq_true',
      beq_iff_eq, eq_iff_iff]
    constructor
    · rintro ⟨⟨hm, h1, h2⟩, h3, h4⟩
      refine ⟨hm, h1, h2, ?_, ?_⟩
      · intro hmem
        rw [contains_eq_mem.2 hmem] at h3
        simp at h3
      · intro hmem
        rw [contains_eq_mem.2 hmem] at h4
        simp at h4
    · rintro ⟨hm, h1, h2, h3, h4⟩
      refine ⟨⟨hm, h1, h2⟩, ?_, ?_⟩
      · cases hc : (playingIds db rid).contains m.player1_id with
        | false => rfl
        | true => exact absurd (contains_eq_mem.1 hc) h3
      · cases hc : (playingIds db rid).contains m.player2_id with
        | false => rfl
        | true => exact absurd (contains_eq_mem.1 hc) h4
  · intro db rid pid
    simp only [playingIds, List.mem_flatten, List.mem_map, List.mem_filter,
      Bool.and_eq_true, beq_iff_eq]
    constructor
    · rintro ⟨l, ⟨mm, ⟨hmm, h1, h2⟩, rfl⟩, hpid⟩
      simp only [List.mem_cons, List.mem_singleton, List.not_mem_nil, or_false] at hpid
      exact ⟨mm, hmm, h1, h2, hpid⟩
    · rintro ⟨mm, hmm, h1, h2, hside⟩
      exact ⟨[mm.player1_id, mm.player2_id], ⟨mm, ⟨hmm, h1, h2⟩, rfl⟩, by
        rcases hside with h | h <;> simp [h]⟩
  · intro db mid m hm
    refine ⟨setMatch db mid (fun mm => { mm with status := "playing" }), ?_, ?_⟩
    · simp [play_match, hm]
    · unfold matchStatus getMatch setMatch
      rw [find?_map_congr _ _ _ (fun a => by by_cases h : (a.id == mid) = true <;> simp [h])]
      unfold getMatch at hm
      rw [hm]
      have hid : m.id = mid := by simpa using List.find?_some hm
      simp [hid]

/-- Witness for c8_start_listing_guard at a concrete store. -/
theorem c8_witness :
    ∃ db2, play_match dbScheduledMatch 1 = some db2 ∧ matchStatus db2 1 = some "playing" :=
  c8_start_listing_guard.2.2 dbScheduledMatch 1 ⟨1, 1, 1, 1, 2, none, "scheduled"⟩ rfl

/-- Claim C8, counterexample: play_match moves a done match back to playing,
so the scheduled-only precondition and the no-backward-transition rule are
not enforced by the mutating operation. -/
theorem c8_counterexample :
    (play_match dbDoneMatch 1).map (fun d => matchStatus d 1) = some (some "playing")
    ∧ matchStatus dbDoneMatch 1 = some "done" := by decide

/-!  Claim C4: pending rounds. -/

/-- Claim C4, amended: round_simple performs no pending-round check; it
always inserts one more round with status pending, so invoking it while a
round is open yields two pending rounds with no error.  The at-most-one
pending round discipline lives only in the menu, which offers the
create-simple action exactly when the tournament exists and is not ended,
the pending-round query returns no row, and no completed simple round
exists - so in particular never while a round is pending. -/
theorem c4_round_simple_always_pends :
    ∀ (db : DB) (tid : Nat),
      (pendingRounds (round_simple db tid) tid).length = (pendingRounds db tid).length + 1
      ∧ (menuOffersSimple db tid = true ↔
          ((∃ tour, getTournament db tid = some tour ∧ tour.status ≠ "ended")
            ∧ pendingRounds db tid = [] ∧ latestDoneSimple db tid = none)) := by
  intro db tid
  constructor
  · simp [round_simple, pendingRounds, List.filter_append]
  · constructor
    · intro h
      unfold menuOffersSimple at h
      rcases hfind : db.tournaments.find? (fun t => t.id == tid) with _ | tour
      · simp only [hfind] at h
        exact Bool.noConfusion h
      · simp only [hfind] at h
        by_cases hend : tour.status = "ended"
        · rw [if_pos (by simp [hend])] at h
          exact Bool.noConfusion h
        · rw [if_neg (by simp [hend])] at h
          rcases hp : pendingRounds db tid with _ | ⟨r, rs⟩
          · simp only [hp] at h
            refine ⟨⟨tour, ?_, hend⟩, rfl, ?_⟩
            · unfold getTournament
              exact hfind
            · simpa [Option.isNone_iff_eq_none] using h
          · simp only [hp] at h
            exact Bool.noConfusion h
    · rintro ⟨⟨tour, hfind, hend⟩, hp, hld⟩
      unfold getTournament at hfind
      unfold menuOffersSimple
      simp only [hfind]
      rw [if_neg (by simp [hend]), hp, hld]
      rfl

/-- Witness for c4_round_simple_always_pends at a concrete store where the
menu does offer the button. -/
theorem c4_witness :
    (pendingRounds (round_simple dbFreshEight 1) 1).length = (pendingRounds dbFreshEight 1).length + 1
    ∧ pendingRounds dbFreshEight 1 = [] ∧ latestDoneSimple dbFreshEight 1 = none :=
  ⟨(c4_round_simple_always_pends dbFreshEight 1).1,
   ((c4_round_simple_always_pends dbFreshEight 1).2.mp (by decide)).2⟩

/-- Claim C4, counterexample: with a pending round already open, round_simple
succeeds and the tournament now has two pending rounds, so creation is not
rejected with RoundAlreadyPending and the at-most-one-pending invariant
fails. -/
theorem c4_counterexample :
    (pendingRounds (round_simple dbPendingRound 1) 1).length = 2
    ∧ (pendingRounds dbPendingRound 1).length = 1 := by decide

/-!  Claim C3: round completion. -/

/-- The completion check leaves the matches table alone. -/
theorem allMatchesDone_checkRoundDone (db : DB) (rid rid2 : Nat) :
    allMatchesDone (checkRoundDone db rid) rid2 = allMatchesDone db rid2 := by
  unfold checkRoundDone
  by_cases h : allMatchesDone db rid
  · simp only [h, if_true]
    rfl
  · simp [h]

/-- Setting a round to done twice equals setting it once. -/
theorem setRound_done_idem (db : DB) (rid : Nat) :
    setRound (setRound db rid (fun r => { r with status := "done" })) rid
        (fun r => { r with status := "done" })
      = setRound db rid (fun r => { r with status := "done" }) := by
  unfold setRound
  simp only [List.map_map]
  congr 1
  apply List.map_congr_left
  intro r _
  by_cases hr : r.id = rid <;> simp [hr]

/-- Claim C3: the completion check run after each confirmation flips a not
yet done round to done exactly when every match of the round is done, does
nothing at all when some match is not done, and is idempotent: a second run
on a completed round changes nothing. -/
theorem c3_round_completion :
    ∀ (db : DB) (rid : Nat),
      checkRoundDone (checkRoundDone db rid) rid = checkRoundDone db rid
      ∧ (allMatchesDone db rid = false → checkRoundDone db rid = db)
      ∧ (∀ s, roundStatus db rid = some s → s ≠ "done" →
          (roundStatus (checkRoundDone db rid) rid = some "done"
            ↔ allMatchesDone db rid = true)) := by
  intro db rid
  refine ⟨?_, ?_, ?_⟩
  · by_cases h : allMatchesDone db rid
    · have hstep : checkRoundDone db rid
          = setRound db rid (fun r => { r with status := "done" }) := by
        unfold checkRoundDone
        rw [h]
        simp
      have h2 : allMatchesDone
          (setRound db rid (fun r => { r with status := "done" })) rid = true := h
      rw [hstep]
      unfold checkRoundDone
      rw [h2]
      simp only [if_true]
      exact setRound_done_idem db rid
    · have hfalse : allMatchesDone db rid = false := by simpa using h
      have hdb : checkRoundDone db rid = db := by
        unfold checkRoundDone
        rw [hfalse]
        simp
      rw [hdb]
      exact hdb
  · intro h
    unfold checkRoundDone
    rw [h]
    simp
  · intro s hs hsne
    by_cases h : allMatchesDone db rid
    · have : roundStatus (checkRoundDone db rid) rid = some "done" := by
        unfold checkRoundDone
        rw [h]
        simp only [if_true]
        rw [roundStatus_setRound_done, hs]
        rfl
      simp [this, h]
    · have hfalse : allMatchesDone db rid = false := by simpa using h
      unfold checkRoundDone
      rw [hfalse]
      simp only [Bool.false_eq_true, if_false]
      rw [hs]
      constructor
      · intro heq
        exact absurd (by simpa using heq) hsne
      · intro heq
        cases heq

/-!  Claim C7: final-round prerequisites. -/

/-- When a completed simple round exists, round_final never reports the
missing-prerequisite outcome, and any non-ok outcome (an unhandled index or
key error) leaves the store unchanged. -/
theorem round_final_after_done_simple (db : DB) (tid : Nat) (simple : Round)
    (hls : latestDoneSimple db tid = some simple) :
    (round_final db tid).1 ≠ FinalOutcome.noSimpleDone
    ∧ ((round_final db tid).1 ≠ FinalOutcome.ok → (round_final db tid).2 = db) := by
  unfold round_final
  simp only [hls]
  constructor
  · split
    all_goals try split
    all_goals try split
    all_goals simp
  · intro hne
    revert hne
    split
    all_goals try split
    all_goals try split
    all_goals intro hne
    all_goals first | rfl | exact absurd rfl hne

/-- Claim C7, amended: the only prerequisite round_final checks and reports
is the existence of a completed simple round; the eight-player and
two-table conditions are never validated.  An undersized prior round makes
the handler die with an unreported index error (store unchanged), shown
here on six players in two tables of three. -/
theorem c7_only_simple_done_checked :
    (∀ (db : DB) (tid : Nat),
      ((round_final db tid).1 = FinalOutcome.noSimpleDone ↔ latestDoneSimple db tid = none)
      ∧ ((round_final db tid).1 ≠ FinalOutcome.ok → (round_final db tid).2 = db))
    ∧ (round_final dbSixDone 1).1 = FinalOutcome.fault := by
  constructor
  · intro db tid
    cases hls : latestDoneSimple db tid with
    | none =>
      constructor
      · unfold round_final
        simp [hls]
      · intro hne
        unfold round_final
        simp [hls]
    | some simple =>
      have h := round_final_after_done_simple db tid simple hls
      constructor
      · constructor
        · intro hbad
          exact absurd hbad h.1
        · intro hnone
          cases hnone
      · exact h.2
  · decide

/-- Witness for c7_only_simple_done_checked on a store with no completed
simple round: the reported outcome is noSimpleDone and the store survives. -/
theorem c7_witness :
    (round_final dbFreshEight 1).1 = FinalOutcome.noSimpleDone
    ∧ (round_final dbFreshEight 1).2 = dbFreshEight :=
  ⟨(c7_only_simple_done_checked.1 dbFreshEight 1).1.mpr (by decide),
   (c7_only_simple_done_checked.1 dbFreshEight 1).2 (by decide)⟩

/-- Claim C7, counterexample: a tournament of sixteen players whose
completed simple round had four tables still passes round_final with the ok
outcome (the bracket is silently seeded from the first two tables), so
violating the eight-player and two-table preconditions does not produce the
claimed error. -/
theorem c7_counterexample :
    (round_final dbSixteenDone 1).1 = FinalOutcome.ok
    ∧ dbSixteenDone.players.length = 16
    ∧ (latestDoneSimple dbSixteenDone 1).map (fun r => r.data)
        = some (RoundData.tables [[1, 5, 9, 13], [2, 6, 10, 14], [3, 7, 11, 15], [4, 8, 12, 16]]) := by
  decide

/-!  Claims C5, C6: the table partitioner. -/

/-- everyNth on the empty list. -/
theorem everyNth_nil {α : Type} (t j : Nat) : everyNth ([] : List α) t j = [] := rfl

/-- everyNth picks the head when its countdown is 0 and then waits t - 1. -/
theorem everyNth_cons_zero {α : Type} (p : α) (ps : List α) (t : Nat) :
    everyNth (p :: ps) t 0 = p :: everyNth ps t (t - 1) := rfl

/-- everyNth skips the head while its countdown is positive. -/
theorem everyNth_cons_succ {α : Type} (p : α) (ps : List α) (t j : Nat) :
    everyNth (p :: ps) t (j + 1) = everyNth ps t j := rfl

/-- The concatenation of the s + 1 residue classes of a list is a
permutation of the list. -/
theorem join_everyNth_perm {α : Type} (s : Nat) (ps : List α) :
    (((List.range (s + 1)).map (everyNth ps (s + 1))).flatten).Perm ps := by
  induction ps with
  | nil =>
    have h : (List.range (s + 1)).map (everyNth ([] : List α) (s + 1))
        = (List.range (s + 1)).map (fun _ => []) := by
      apply List.map_congr_left
      intro j _
      rfl
    rw [h]
    have h2 : ∀ L : List Nat, (L.map (fun _ => ([] : List α))).flatten = [] := by
      intro L
      induction L with
      | nil => rfl
      | cons a L ih => simp [ih]
    rw [h2]
  | cons p ps ih =>
    rw [List.range_succ_eq_map, List.map_cons, List.map_map]
    have hcomp : (everyNth (p :: ps) (s + 1)) ∘ Nat.succ = everyNth ps (s + 1) := by
      funext j
      rfl
    rw [hcomp, everyNth_cons_zero]
    simp only [List.flatten_cons, Nat.add_sub_cancel]
    rw [List.range_succ, List.map_append, List.flatten_append] at ih
    simp only [List.map_cons, List.map_nil, List.flatten_cons, List.flatten_nil,
      List.append_nil] at ih
    exact List.Perm.cons p (List.Perm.trans List.perm_append_comm ih)

/-- Membership in the scanned candidate list: the even numbers from 2 up to
the last scanned value. -/
theorem mem_scanned_iff (n t : Nat) :
    t ∈ scanned n ↔ (t % 2 = 0 ∧ 2 ≤ t ∧ t ≤ 2 * ((n / 4 + 2) / 2)) := by
  unfold scanned
  rw [List.mem_range']
  constructor
  · rintro ⟨i, hi, rfl⟩
    omega
  · rintro ⟨h1, h2, h3⟩
    exact ⟨(t - 2) / 2, by omega, by omega⟩

/-- The loop of round_simple always scans at least the candidate 2. -/
theorem scanned_ne_nil (n : Nat) : scanned n ≠ [] := by
  unfold scanned
  rw [Ne, List.range'_eq_nil]
  omega

/-- The chosen table count is always one of the scanned candidates. -/
theorem chooseT_mem_scanned (n : Nat) : chooseT n ∈ scanned n := by
  unfold chooseT
  cases hf : (scanned n).find? (fun t => sizeOk n t) with
  | some t => exact List.mem_of_find?_eq_some hf
  | none =>
    rw [List.getLastD_eq_getLast?, List.getLast?_eq_getLast_of_ne_nil (scanned_ne_nil n)]
    exact List.getLast_mem (scanned_ne_nil n)

/-- The chosen table count is even. -/
theorem chooseT_even (n : Nat) : chooseT n % 2 = 0 :=
  ((mem_scanned_iff n (chooseT n)).1 (chooseT_mem_scanned n)).1

/-- The chosen table count is at least 2. -/
theorem chooseT_ge_two (n : Nat) : 2 ≤ chooseT n :=
  ((mem_scanned_iff n (chooseT n)).1 (chooseT_mem_scanned n)).2.1

/-- Every member of range' is at least its start. -/
theorem range'_le_of_mem {x s n step : Nat} (h : x ∈ List.range' s n step) : s ≤ x := by
  rw [List.mem_range'] at h
  obtain ⟨i, _, rfl⟩ := h
  omega

/-- range' is nondecreasing. -/
theorem range'_pairwise_le (s len step : Nat) :
    (List.range' s len step).Pairwise (· ≤ ·) := by
  induction len generalizing s with
  | zero => exact List.Pairwise.nil
  | succ k ih =>
    rw [List.range'_succ]
    refine List.Pairwise.cons ?_ (ih (s + step))
    intro x hx
    have := range'_le_of_mem hx
    omega

/-- The scanned candidates are listed in nondecreasing order. -/
theorem scanned_pairwise_le (n : Nat) : (scanned n).Pairwise (· ≤ ·) :=
  range'_pairwise_le 2 ((n / 4 + 2) / 2) 2

/-- On a nondecreasing list, find? returns a minimal satisfying element. -/
theorem find?_min_of_sorted {p : Nat → Bool} {x : Nat} :
    ∀ {l : List Nat}, l.Pairwise (· ≤ ·) → l.find? p = some x →
      ∀ y ∈ l, p y = true → x ≤ y := by
  intro l
  induction l with
  | nil => intro _ hf; cases hf
  | cons a l ih =>
    intro hp hf y hy hpy
    cases hpa : p a with
    | true =>
      rw [List.find?_cons, hpa] at hf
      cases hf
      rcases List.mem_cons.1 hy with rfl | hmem
      · exact Nat.le_refl y
      · exact (List.pairwise_cons.1 hp).1 y hmem
    | false =>
      rw [List.find?_cons, hpa] at hf
      rcases List.mem_cons.1 hy with rfl | hmem
      · rw [hpa] at hpy
        cases hpy
      · exact ih (List.pairwise_cons.1 hp).2 hf y hmem hpy

/-- Claim C5: for every player list, the tables dealt by round_simple with
the chosen table count are a partition of the input - their concatenation
is a permutation of the input, so no player is duplicated or omitted, and
on a duplicate-free input the tables are pairwise disjoint - and the number
of tables produced is even. -/
theorem c5_partition :
    ∀ (ps : List Player),
      ((partitionTables ps (chooseT ps.length)).flatten).Perm ps
      ∧ (partitionTables ps (chooseT ps.length)).length % 2 = 0
      ∧ (ps.Nodup → (partitionTables ps (chooseT ps.length)).Pairwise List.Disjoint) := by
  intro ps
  have ht : 2 ≤ chooseT ps.length := chooseT_ge_two ps.length
  obtain ⟨s, hs⟩ : ∃ s, chooseT ps.length = s + 1 := ⟨chooseT ps.length - 1, by omega⟩
  have hperm : ((partitionTables ps (chooseT ps.length)).flatten).Perm ps := by
    unfold partitionTables
    rw [hs]
    exact join_everyNth_perm s ps
  refine ⟨hperm, ?_, ?_⟩
  · have hlen : (partitionTables ps (chooseT ps.length)).length = chooseT ps.length := by
      unfold partitionTables
      simp
    rw [hlen]
    exact chooseT_even ps.length
  · intro hnd
    have hflat : ((partitionTables ps (chooseT ps.length)).flatten).Nodup :=
      (hperm.nodup_iff).2 hnd
    exact (List.nodup_flatten.1 hflat).2

/-- Witness for c5_partition on a concrete duplicate-free player list. -/
theorem c5_witness :
    ((partitionTables psW (chooseT psW.length)).flatten).Perm psW
    ∧ (partitionTables psW (chooseT psW.length)).length % 2 = 0
    ∧ (partitionTables psW (chooseT psW.length)).Pairwise List.Disjoint :=
  ⟨(c5_partition psW).1, (c5_partition psW).2.1, (c5_partition psW).2.2 (by decide)⟩

/-- Claim C6: the scanned candidates are exactly the even numbers from 2
stepping by 2 up to a bound within n / 4 + 2; the chosen count is always a
scanned candidate; when some scanned candidate puts ceil(n / t) in [4, 7]
the chosen count is the least such candidate; when none does, the chosen
count falls back to the last scanned candidate; and concretely 16 players
get 4 tables of 4 while 8 players get 2 tables of 4. -/
theorem c6_table_count :
    (∀ n t, t ∈ scanned n ↔ (t % 2 = 0 ∧ 2 ≤ t ∧ t ≤ 2 * ((n / 4 + 2) / 2)))
    ∧ (∀ n t, t ∈ scanned n → t ≤ n / 4 + 2)
    ∧ (∀ n, chooseT n ∈ scanned n)
    ∧ (∀ n t, t ∈ scanned n → sizeOk n t = true →
        sizeOk n (chooseT n) = true ∧ chooseT n ≤ t)
    ∧ (∀ n, (∀ t ∈ scanned n, sizeOk n t = false) → chooseT n = (scanned n).getLastD 0)
    ∧ chooseT 16 = 4
    ∧ (partitionTables (List.range 16) (chooseT 16)).map List.length = [4, 4, 4, 4]
    ∧ chooseT 8 = 2
    ∧ (partitionTables (List.range 8) (chooseT 8)).map List.length = [4, 4] := by
  refine ⟨mem_scanned_iff, ?_, chooseT_mem_scanned, ?_, ?_,
    by decide, by decide, by decide, by decide⟩
  · intro n t ht
    have := (mem_scanned_iff n t).1 ht
    omega
  · intro n t ht hok
    cases hf : (scanned n).find? (fun t => sizeOk n t) with
    | none =>
      rw [List.find?_eq_none] at hf
      exact absurd hok (by simpa using hf t ht)
    | some c =>
      have hc : chooseT n = c := by
        unfold chooseT
        rw [hf]
      constructor
      · rw [hc]
        exact List.find?_some hf
      · rw [hc]
        exact find?_min_of_sorted (scanned_pairwise_le n) hf t ht hok
  · intro n hall
    have hnone : (scanned n).find? (fun t => sizeOk n t) = none := by
      rw [List.find?_eq_none]
      intro x hx
      rw [hall x hx]
      simp
    unfold chooseT
    rw [hnone]

/-- Witness for c6_table_count: the minimality conjunct applied at
n = 16, t = 4. -/
theorem c6_witness : sizeOk 16 (chooseT 16) = true ∧ chooseT 16 ≤ 4 :=
  c6_table_count.2.2.2.1 16 4 (by decide) (by decide)

/-- Witness for c3_round_completion on a pending round whose matches are
all done: the check flips it to done and a second run changes nothing. -/
theorem c3_witness :
    roundStatus (checkRoundDone dbRoundReady 1) 1 = some "done"
    ∧ checkRoundDone (checkRoundDone dbRoundReady 1) 1 = checkRoundDone dbRoundReady 1 :=
  ⟨((c3_round_completion dbRoundReady 1).2.2 "pending" (by decide) (by decide)).mpr (by decide),
   (c3_round_completion dbRoundReady 1).1⟩
